import Mathlib

/-!
A shallow embedding of `src/movie-night.js`: the `validateSearchInput`
helper, the `runCountdown` timer, and the `Watchlist` class (load, save,
add, remove, randomPick) together with the localStorage value at the
watchlist's bound key. Browser built-ins used by the code
(`String.prototype.trim`, `JSON.stringify` / `JSON.parse` restricted to
arrays of movie entries, `Math.random`, `setInterval`) are modelled
explicitly; everything else is translated directly from the source.
-/

/-- One watchlist record, as stored in `this.items`: the fields of an OMDB
search result that the code reads, plus the `watched` flag. `watched` is
`Option Bool` because a JS object may lack the field (`undefined`), which
`Watchlist.add` detects with a `typeof` check. -/
structure MovieEntry where
  imdbID : String
  Title : String
  Year : String
  Poster : String
  watched : Option Bool
deriving Repr, DecidableEq

/-- JS truthiness of the `watched` field as read by `!m.watched`:
`undefined` and `false` are falsy, `true` is truthy. -/
def watchedTruthy : Option Bool → Bool
  | some true => true
  | _ => false

/-- Modelled from the spec: JS whitespace characters relevant to
`String.prototype.trim` (a host built-in, not in the source). -/
def isJsSpace (c : Char) : Bool :=
  c = ' ' || c = '\t' || c = '\n' || c = '\r'

/-- Modelled from the spec: `String.prototype.trim` — removes leading and
trailing whitespace. -/
def jsTrim (s : String) : String :=
  String.mk (((s.data.dropWhile isJsSpace).reverse.dropWhile isJsSpace).reverse)

/-- The JS regex test `/^\d{4}$/.test(s)`: `s` consists of exactly four
decimal digits. -/
def isFourDigits (s : String) : Bool :=
  s.length == 4 && s.data.all Char.isDigit

/-- Result shape of `validateSearchInput`: `{ ok, message }`. -/
structure ValidationResult where
  ok : Bool
  message : String
deriving Repr, DecidableEq

/-- `validateSearchInput(title, year)` from src/movie-night.js lines 3-14.
`!title` on a string is true exactly for the empty string. -/
def validateSearchInput (title year : String) : ValidationResult :=
  if title == "" || jsTrim title == "" then
    { ok := false, message := "Title is required." }
  else if year != "" && jsTrim year != "" && !(isFourDigits (jsTrim year)) then
    { ok := false, message := "Year must be 4 digits (or leave blank)." }
  else
    { ok := true, message := "" }

/-! ### Serialization

`save` calls `JSON.stringify(this.items)` and `load` calls
`JSON.parse(raw)`. These are host built-ins, so the serialization of a
movie-entry array is modelled as an injective string codec whose decoder
is partial: `decodeItems` returns `none` exactly where `JSON.parse` would
throw or not produce a well-formed entry array. -/

/-- Unary length marker used by the string codec. -/
def encNat : Nat → List Char
  | 0 => []
  | n + 1 => '#' :: encNat n

/-- Encode one string field: unary length, a colon, then the characters. -/
def encStr (s : String) : List Char :=
  encNat s.length ++ ':' :: s.data

/-- Read exactly `n` characters, returning them and the rest. -/
def readChars : Nat → List Char → Option (List Char × List Char)
  | 0, cs => some ([], cs)
  | _ + 1, [] => none
  | n + 1, c :: cs => (readChars n cs).map (fun p => (c :: p.1, p.2))

/-- Decode a length-marked string field, accumulating the unary count. -/
def decStrAux : Nat → List Char → Option (String × List Char)
  | k, '#' :: cs => decStrAux (k + 1) cs
  | k, ':' :: cs => (readChars k cs).map (fun p => (String.mk p.1, p.2))
  | _, _ => none

/-- Decode one string field from the front. -/
def decStr (cs : List Char) : Option (String × List Char) :=
  decStrAux 0 cs

/-- Encode the `watched` field (`undefined` / `false` / `true`). -/
def encOB : Option Bool → Char
  | none => 'n'
  | some false => 'f'
  | some true => 't'

/-- Decode the `watched` field. -/
def decOB : Char → Option (Option Bool)
  | 'n' => some none
  | 'f' => some (some false)
  | 't' => some (some true)
  | _ => none

/-- Encode one movie entry. -/
def encEntry (m : MovieEntry) : List Char :=
  encStr m.imdbID ++ encStr m.Title ++ encStr m.Year ++ encStr m.Poster ++
    [encOB m.watched]

/-- Decode one movie entry from the front. -/
def decEntry (cs : List Char) : Option (MovieEntry × List Char) :=
  match decStr cs with
  | none => none
  | some (i, cs1) =>
    match decStr cs1 with
    | none => none
    | some (t, cs2) =>
      match decStr cs2 with
      | none => none
      | some (y, cs3) =>
        match decStr cs3 with
        | none => none
        | some (p, cs4) =>
          match cs4 with
          | [] => none
          | c :: cs5 =>
            match decOB c with
            | none => none
            | some wv => some (⟨i, t, y, p, wv⟩, cs5)

/-- Encode an entry list: each entry marked `e`, terminated by `$`. -/
def encItemsL : List MovieEntry → List Char
  | [] => ['$']
  | m :: ms => 'e' :: (encEntry m ++ encItemsL ms)

/-- Decode an entry list; `fuel` bounds the number of entries. -/
def decItemsL : Nat → List Char → Option (List MovieEntry × List Char)
  | _, '$' :: cs => some ([], cs)
  | fuel + 1, 'e' :: cs =>
    match decEntry cs with
    | none => none
    | some (m, cs1) =>
      match decItemsL fuel cs1 with
      | none => none
      | some (ms, cs2) => some (m :: ms, cs2)
  | _, _ => none

/-- `JSON.stringify` applied to an array of movie entries (modelled). -/
def encodeItems (l : List MovieEntry) : String :=
  String.mk (encItemsL l)

/-- `JSON.parse` of a stored watchlist string (modelled): succeeds exactly
on well-formed serialized entry arrays with nothing trailing. -/
def decodeItems (s : String) : Option (List MovieEntry) :=
  match decItemsL s.data.length s.data with
  | some (l, []) => some l
  | _ => none

/-! ### Codec round-trip lemmas -/

theorem readChars_append (l r : List Char) :
    readChars l.length (l ++ r) = some (l, r) := by
  induction l with
  | nil => rfl
  | cons c cs ih => simp [readChars, ih]

theorem decStrAux_encNat (n : Nat) (k : Nat) (cs : List Char) :
    decStrAux k (encNat n ++ ':' :: cs) =
      (readChars (n + k) cs).map (fun p => (String.mk p.1, p.2)) := by
  induction n generalizing k with
  | zero =>
    show (readChars k cs).map (fun p => (String.mk p.1, p.2)) = _
    rw [Nat.zero_add]
  | succ n ih =>
    show decStrAux (k + 1) (encNat n ++ ':' :: cs) = _
    rw [ih]
    have h : n + (k + 1) = n + 1 + k := by omega
    rw [h]

theorem String.mk_data (s : String) : String.mk s.data = s := by
  cases s; rfl

theorem decStr_encStr (s : String) (r : List Char) :
    decStr (encStr s ++ r) = some (s, r) := by
  have h1 : decStr (encStr s ++ r) =
      (readChars (s.length + 0) (s.data ++ r)).map (fun p => (String.mk p.1, p.2)) := by
    simp only [decStr, encStr, List.append_assoc, List.cons_append]
    exact decStrAux_encNat s.length 0 (s.data ++ r)
  have hlen : s.length + 0 = s.data.length := rfl
  rw [h1, hlen, readChars_append]
  show some (String.mk s.data, r) = some (s, r)
  rw [String.mk_data]

theorem decOB_encOB (w : Option Bool) : decOB (encOB w) = some w := by
  cases w with
  | none => rfl
  | some b => cases b <;> rfl

theorem decEntry_encEntry (m : MovieEntry) (r : List Char) :
    decEntry (encEntry m ++ r) = some (m, r) := by
  simp only [decEntry, encEntry, List.append_assoc, List.cons_append,
    List.singleton_append, decStr_encStr]
  simp [decOB_encOB]

theorem decItemsL_encItemsL (ms : List MovieEntry) :
    ∀ (fuel : Nat) (r : List Char), ms.length ≤ fuel →
      decItemsL fuel (encItemsL ms ++ r) = some (ms, r) := by
  induction ms with
  | nil => intro fuel r _; cases fuel <;> rfl
  | cons m ms ih =>
    intro fuel r hfuel
    cases fuel with
    | zero => simp at hfuel
    | succ f =>
      have h' : ms.length ≤ f := by simp at hfuel; omega
      show decItemsL (f + 1) ('e' :: (encEntry m ++ encItemsL ms) ++ r) = _
      rw [List.cons_append, List.append_assoc]
      show (match decEntry (encEntry m ++ (encItemsL ms ++ r)) with
        | none => none
        | some (m', cs1) =>
          match decItemsL f cs1 with
          | none => none
          | some (ms', cs2) => some (m' :: ms', cs2)) = _
      rw [decEntry_encEntry]
      show (match decItemsL f (encItemsL ms ++ r) with
        | none => none
        | some (ms', cs2) => some (m :: ms', cs2)) = _
      rw [ih f r h']

theorem length_encItemsL (ms : List MovieEntry) :
    ms.length ≤ (encItemsL ms).length := by
  induction ms with
  | nil => simp [encItemsL]
  | cons m ms ih =>
    show ms.length + 1 ≤ ('e' :: (encEntry m ++ encItemsL ms)).length
    simp only [List.length_cons, List.length_append]
    omega

theorem decodeItems_encodeItems (l : List MovieEntry) :
    decodeItems (encodeItems l) = some l := by
  have hdata : (encodeItems l).data = encItemsL l := rfl
  have h := decItemsL_encItemsL l (encItemsL l).length [] (length_encItemsL l)
  simp only [List.append_nil] at h
  simp [decodeItems, hdata, h]

theorem encodeItems_ne_empty (l : List MovieEntry) : encodeItems l ≠ "" := by
  intro h
  have : (encodeItems l).data = [] := by rw [h]
  cases l <;> simp [encodeItems, encItemsL] at this

/-! ### The Watchlist class

The state couples `this.items` with the localStorage value at the bound
key (`this.storageKey` is fixed for the life of the object, so a single
optional string models the store slot; `none` is an absent key). -/

/-- A `Watchlist` instance together with the localStorage slot it is
bound to. -/
structure Watchlist where
  items : List MovieEntry
  store : Option String
deriving Repr, DecidableEq

/-- `save()` (lines 81-83): `localStorage.setItem(key, JSON.stringify(items))`. -/
def Watchlist.save (w : Watchlist) : Watchlist :=
  { w with store := some (encodeItems w.items) }

/-- `load()` (lines 76-79): `raw ? JSON.parse(raw) : []`. An absent key
(`getItem` returns `null`) or the empty string is falsy, giving `[]`;
otherwise `JSON.parse` runs, and when it throws the exception propagates
(`Except.error ()`) with `this.items` never assigned. -/
def Watchlist.load (w : Watchlist) : Except Unit Watchlist :=
  match w.store with
  | none => Except.ok { w with items := [] }
  | some raw =>
    if raw = "" then Except.ok { w with items := [] }
    else
      match decodeItems raw with
      | some v => Except.ok { w with items := v }
      | none => Except.error ()

/-- `add(movie)` (lines 85-99): duplicate `imdbID` is a no-op; otherwise
copy the argument, default `watched` to `false` when `undefined`, push,
and save. -/
def Watchlist.add (w : Watchlist) (movie : MovieEntry) : Watchlist :=
  if w.items.any (fun m => m.imdbID == movie.imdbID) then w
  else
    Watchlist.save
      { w with
        items := w.items ++ [{ movie with watched := some (movie.watched.getD false) }] }

/-- `remove(imdbID)` (lines 101-106): keep entries whose `imdbID` differs,
then save unconditionally. -/
def Watchlist.remove (w : Watchlist) (imdbID : String) : Watchlist :=
  Watchlist.save { w with items := w.items.filter (fun m => m.imdbID ≠ imdbID) }

/-- The local `unwatched` of `randomPick` (lines 110-112):
`this.items.filter(m => !m.watched)`. -/
def Watchlist.unwatchedOf (w : Watchlist) : List MovieEntry :=
  w.items.filter (fun m => !(watchedTruthy m.watched))

/-- `randomPick()` (lines 108-120), with `Math.random()` modelled as the
parameter `r ∈ [0, 1)`. Returns the picked entry (`none` is JS `null`)
paired with the state after the call; the body only reads, so the state
component is the input state. `Math.floor(Math.random() * len)` is
`(⌊r * len⌋).toNat`. -/
def Watchlist.randomPick (w : Watchlist) (r : ℚ) : Option MovieEntry × Watchlist :=
  if w.unwatchedOf.length = 0 then (none, w)
  else (w.unwatchedOf[(⌊r * w.unwatchedOf.length⌋).toNat]?, w)

/-! ### The countdown timer -/

/-- One observed callback invocation of `runCountdown`. -/
inductive CEvent where
  | tick (n : Int)
  | done
deriving Repr, DecidableEq

/-- The interval callback of `runCountdown` (lines 21-30): each firing
decrements `remaining`; at `<= 0` it clears the interval and invokes
`onDone`, otherwise it invokes `onTick` with the new value. The result is
the trace of invocations the interval produces from a given `remaining`. -/
def tickLoop (remaining : Int) : List CEvent :=
  if h : remaining - 1 ≤ 0 then [CEvent.done]
  else CEvent.tick (remaining - 1) :: tickLoop (remaining - 1)
termination_by remaining.toNat
decreasing_by
  simp only [not_le] at h
  omega

/-- `runCountdown(seconds, onTick, onDone)` (lines 17-33) as the full
trace of callback invocations: `onTick(remaining)` immediately, then the
interval's trace. -/
def runCountdown (seconds : Int) : List CEvent :=
  CEvent.tick seconds :: tickLoop seconds

/-! ### Helper lemmas about the Watchlist operations -/

theorem Watchlist.add_of_mem (w : Watchlist) (e : MovieEntry)
    (h : ∃ m ∈ w.items, m.imdbID = e.imdbID) : w.add e = w := by
  have hany : w.items.any (fun m => m.imdbID == e.imdbID) = true := by
    rcases h with ⟨m, hm, he⟩
    simp only [List.any_eq_true, beq_iff_eq]
    exact ⟨m, hm, he⟩
  simp [Watchlist.add, hany]

theorem Watchlist.add_of_not_mem (w : Watchlist) (e : MovieEntry)
    (h : ¬ ∃ m ∈ w.items, m.imdbID = e.imdbID) :
    w.add e = Watchlist.save
      { w with items :=
          w.items ++ [{ e with watched := some (e.watched.getD false) }] } := by
  have hany : w.items.any (fun m => m.imdbID == e.imdbID) = false := by
    simp only [List.any_eq_false, beq_iff_eq]
    intro m hm he
    exact h ⟨m, hm, he⟩
  simp [Watchlist.add, hany]

theorem Watchlist.add_nodup (w : Watchlist) (e : MovieEntry)
    (hnd : (w.items.map (fun m => m.imdbID)).Nodup) :
    ((w.add e).items.map (fun m => m.imdbID)).Nodup := by
  by_cases hex : ∃ m ∈ w.items, m.imdbID = e.imdbID
  · rw [Watchlist.add_of_mem w e hex]
    exact hnd
  · rw [Watchlist.add_of_not_mem w e hex]
    show ((w.items ++ [{ e with watched := some (e.watched.getD false) }]).map
      (fun (m : MovieEntry) => m.imdbID)).Nodup
    rw [List.map_append]
    rw [List.nodup_append]
    refine ⟨hnd, by simp, ?_⟩
    intro a ha
    simp only [List.map_cons, List.map_nil, List.mem_cons, List.not_mem_nil] at *
    intro hb
    rcases hb with hb | hb
    · rcases List.mem_map.mp ha with ⟨m, hm, hme⟩
      exact hex ⟨m, hm, by rw [hme, hb]⟩
    · exact hb

theorem Watchlist.add_append (w : Watchlist) (e : MovieEntry) :
    ∃ t, (w.add e).items = w.items ++ t := by
  by_cases hex : ∃ m ∈ w.items, m.imdbID = e.imdbID
  · exact ⟨[], by rw [Watchlist.add_of_mem w e hex, List.append_nil]⟩
  · exact ⟨[{ e with watched := some (e.watched.getD false) }],
      by rw [Watchlist.add_of_not_mem w e hex]; rfl⟩

theorem Watchlist.foldl_add_nodup (es : List MovieEntry) (w : Watchlist)
    (hnd : (w.items.map (fun m => m.imdbID)).Nodup) :
    (((es.foldl Watchlist.add w).items).map (fun m => m.imdbID)).Nodup := by
  induction es generalizing w with
  | nil => exact hnd
  | cons e es ih => exact ih (w.add e) (Watchlist.add_nodup w e hnd)

theorem Watchlist.foldl_add_append (es : List MovieEntry) (w : Watchlist) :
    ∃ t, (es.foldl Watchlist.add w).items = w.items ++ t := by
  induction es generalizing w with
  | nil => exact ⟨[], by simp⟩
  | cons e es ih =>
    rcases ih (w.add e) with ⟨t2, ht2⟩
    rcases Watchlist.add_append w e with ⟨t1, ht1⟩
    exact ⟨t1 ++ t2, by
      show (es.foldl Watchlist.add (w.add e)).items = _
      rw [ht2, ht1, List.append_assoc]⟩

/-! ### Claim theorems -/

/-- C8: `validateSearchInput` fails with the title-required message exactly
when the title is blank after trimming; fails with the year-format message
when the title passes but the year is non-blank after trimming and not
exactly 4 digits; passes otherwise. In particular `"  "` fails,
`("Up", "09")` fails on the year, `("Up", "")` and `("Up", "2009")` pass. -/
theorem validateSearchInput_spec (title year : String) :
    (jsTrim title = "" →
      validateSearchInput title year = { ok := false, message := "Title is required." })
    ∧ (jsTrim title ≠ "" → jsTrim year ≠ "" → isFourDigits (jsTrim year) = false →
      validateSearchInput title year
        = { ok := false, message := "Year must be 4 digits (or leave blank)." })
    ∧ (jsTrim title ≠ "" → jsTrim year = "" →
      validateSearchInput title year = { ok := true, message := "" })
    ∧ (jsTrim title ≠ "" → isFourDigits (jsTrim year) = true →
      validateSearchInput title year = { ok := true, message := "" })
    ∧ validateSearchInput "  " "" = { ok := false, message := "Title is required." }
    ∧ validateSearchInput "Up" "09"
        = { ok := false, message := "Year must be 4 digits (or leave blank)." }
    ∧ validateSearchInput "Up" "" = { ok := true, message := "" }
    ∧ validateSearchInput "Up" "2009" = { ok := true, message := "" } := by
  have htriv : jsTrim "" = "" := rfl
  refine ⟨?_, ?_, ?_, ?_, by decide, by decide, by decide, by decide⟩
  · intro h
    simp [validateSearchInput, h]
  · intro h1 h2 h3
    have ht : title ≠ "" := fun hh => h1 (by rw [hh]; exact htriv)
    have hy : year ≠ "" := fun hh => h2 (by rw [hh]; exact htriv)
    simp [validateSearchInput, h1, h2, h3, ht, hy]
  · intro h1 h2
    have ht : title ≠ "" := fun hh => h1 (by rw [hh]; exact htriv)
    simp [validateSearchInput, h1, h2, ht]
  · intro h1 h2
    have ht : title ≠ "" := fun hh => h1 (by rw [hh]; exact htriv)
    simp [validateSearchInput, h1, h2, ht]

/-- Witness for C8: the year-format clause applies at `("Up", "09")`. -/
theorem validateSearchInput_spec_witness :
    validateSearchInput "Up" "09"
      = { ok := false, message := "Year must be 4 digits (or leave blank)." } :=
  (validateSearchInput_spec "Up" "09").2.1 (by decide) (by decide) (by decide)

/-- C9: a countdown started with duration 3 produces exactly the trace
tick(3), tick(2), tick(1), done — no tick of 0 and nothing afterwards. -/
theorem runCountdown_three_trace :
    runCountdown 3 = [CEvent.tick 3, CEvent.tick 2, CEvent.tick 1, CEvent.done] := by
  show CEvent.tick 3 :: tickLoop 3 = _
  rw [tickLoop]; norm_num
  rw [tickLoop]; norm_num
  rw [tickLoop]; norm_num

/-- C5: `randomPick` leaves all state unchanged — the resulting state is
the input state, so the sequence, every `watched` flag, and the store
value are untouched. -/
theorem randomPick_no_mutation (w : Watchlist) (r : ℚ) :
    (w.randomPick r).2 = w
    ∧ ((w.randomPick r).2).items = w.items
    ∧ ((w.randomPick r).2).store = w.store := by
  by_cases h : w.unwatchedOf.length = 0 <;>
    simp [Watchlist.randomPick, h]

/-- C6: `remove(id)` removes exactly the entries whose `imdbID` equals
`id`, keeps the rest in order (the result is a sublist), and always
rewrites the store with the serialization of the result; with no match the
sequence is unchanged but the store is still rewritten. -/
theorem remove_spec (w : Watchlist) (id : String) :
    List.Sublist ((w.remove id).items) w.items
    ∧ (∀ m, m ∈ (w.remove id).items ↔ m ∈ w.items ∧ m.imdbID ≠ id)
    ∧ (w.remove id).store
        = some (encodeItems (w.items.filter (fun m => m.imdbID ≠ id)))
    ∧ ((∀ m ∈ w.items, m.imdbID ≠ id) →
        (w.remove id).items = w.items
        ∧ (w.remove id).store = some (encodeItems w.items)) := by
  have hitems : (w.remove id).items = w.items.filter (fun m => m.imdbID ≠ id) := rfl
  refine ⟨?_, ?_, rfl, ?_⟩
  · rw [hitems]
    exact List.filter_sublist w.items
  · intro m
    rw [hitems]
    simp [List.mem_filter]
  · intro h
    have hfil : w.items.filter (fun m => m.imdbID ≠ id) = w.items := by
      apply List.filter_eq_self.mpr
      intro a ha
      simpa using h a ha
    constructor
    · rw [hitems, hfil]
    · show some (encodeItems (w.items.filter (fun m => m.imdbID ≠ id))) = _
      rw [hfil]

/-- Witness for C6: removing a non-matching id from a one-entry list
leaves the sequence unchanged and rewrites the store. -/
theorem remove_spec_witness :
    (Watchlist.remove ⟨[⟨"a", "T", "2001", "p", some false⟩], none⟩ "b").items
        = [⟨"a", "T", "2001", "p", some false⟩]
    ∧ (Watchlist.remove ⟨[⟨"a", "T", "2001", "p", some false⟩], none⟩ "b").store
        = some (encodeItems [⟨"a", "T", "2001", "p", some false⟩]) :=
  (remove_spec ⟨[⟨"a", "T", "2001", "p", some false⟩], none⟩ "b").2.2.2 (by decide)

/-- C3: `save()` then `load()` on the same store key succeeds and yields
the in-memory sequence that was saved — deserialization inverts
serialization on every value `save` can write. -/
theorem save_load_roundtrip (w : Watchlist) :
    (w.save).load = Except.ok w.save ∧ (w.save).items = w.items := by
  obtain ⟨its, st⟩ := w
  refine ⟨?_, rfl⟩
  have hne := encodeItems_ne_empty its
  have hdec := decodeItems_encodeItems its
  show (if encodeItems its = "" then
          Except.ok (⟨[], some (encodeItems its)⟩ : Watchlist)
        else
          match decodeItems (encodeItems its) with
          | some v => Except.ok (⟨v, some (encodeItems its)⟩ : Watchlist)
          | none => Except.error ())
      = Except.ok ⟨its, some (encodeItems its)⟩
  rw [if_neg hne, hdec]

/-- C7: if the store mirrors the in-memory sequence, then after `add` or
`remove` completes the store again equals the serialization of the
in-memory sequence — the save happens synchronously inside the operation. -/
theorem mutation_store_consistency (w : Watchlist) (e : MovieEntry) (id : String)
    (h : w.store = some (encodeItems w.items)) :
    (w.add e).store = some (encodeItems (w.add e).items)
    ∧ (w.remove id).store = some (encodeItems (w.remove id).items) := by
  constructor
  · by_cases hex : ∃ m ∈ w.items, m.imdbID = e.imdbID
    · rw [Watchlist.add_of_mem w e hex]
      exact h
    · rw [Watchlist.add_of_not_mem w e hex]
      rfl
  · rfl

/-- Witness for C7: a consistent empty state stays consistent under `add`
and `remove`. -/
theorem mutation_store_consistency_witness :
    (Watchlist.add ⟨[], some (encodeItems [])⟩ ⟨"a", "T", "2001", "p", none⟩).store
        = some (encodeItems
            (Watchlist.add ⟨[], some (encodeItems [])⟩ ⟨"a", "T", "2001", "p", none⟩).items)
    ∧ (Watchlist.remove ⟨[], some (encodeItems [])⟩ "z").store
        = some (encodeItems (Watchlist.remove ⟨[], some (encodeItems [])⟩ "z").items) :=
  mutation_store_consistency ⟨[], some (encodeItems [])⟩ ⟨"a", "T", "2001", "p", none⟩ "z" rfl

/-- C10: an `add` whose `imdbID` is already present performs no store
write at all — the whole state, and in particular the store slot, is
untouched; by contrast `remove` rewrites the store even when nothing
matches (a `none` store never survives a `remove`). -/
theorem add_duplicate_frame (w : Watchlist) (e : MovieEntry)
    (h : ∃ m ∈ w.items, m.imdbID = e.imdbID) :
    w.add e = w
    ∧ (w.add e).store = w.store
    ∧ (∀ id, (w.remove id).store ≠ none) := by
  have heq := Watchlist.add_of_mem w e h
  exact ⟨heq, by rw [heq], fun id hc => Option.noConfusion hc⟩

/-- Witness for C10: adding a second entry with `imdbID` `"a"` writes
nothing. -/
theorem add_duplicate_frame_witness :
    Watchlist.add ⟨[⟨"a", "T", "2001", "p", some false⟩], none⟩ ⟨"a", "U", "2002", "q", none⟩
        = ⟨[⟨"a", "T", "2001", "p", some false⟩], none⟩
    ∧ (Watchlist.add ⟨[⟨"a", "T", "2001", "p", some false⟩], none⟩
          ⟨"a", "U", "2002", "q", none⟩).store
        = (⟨[⟨"a", "T", "2001", "p", some false⟩], none⟩ : Watchlist).store
    ∧ (∀ id, (Watchlist.remove ⟨[⟨"a", "T", "2001", "p", some false⟩], none⟩ id).store ≠ none) :=
  add_duplicate_frame ⟨[⟨"a", "T", "2001", "p", some false⟩], none⟩
    ⟨"a", "U", "2002", "q", none⟩ (by decide)

/-- C1 counterexample: the stored string `"?"` is not valid serialized
watchlist data, and `load()` on it raises the decode error
(`JSON.parse` throws with no surrounding try/catch) instead of silently
initializing the sequence to `[]`. -/
theorem load_corrupt_counterexample :
    decodeItems "?" = none
    ∧ Watchlist.load ⟨[], some "?"⟩ = Except.error ()
    ∧ Watchlist.load ⟨[], some "?"⟩ ≠ Except.ok ⟨[], some "?"⟩ := by
  refine ⟨rfl, rfl, ?_⟩
  intro hc
  exact Except.noConfusion (rfl.trans hc)

/-- C1 amended: `load()` initializes the sequence to `[]` exactly when the
stored value is absent or the empty string; on a non-empty stored string
it decodes, propagating the decode error to the caller (leaving
`this.items` unassigned) when decoding fails. -/
theorem load_spec (w : Watchlist) :
    (w.store = none → w.load = Except.ok { w with items := [] })
    ∧ (w.store = some "" → w.load = Except.ok { w with items := [] })
    ∧ (∀ raw, w.store = some raw → raw ≠ "" → decodeItems raw = none →
        w.load = Except.error ())
    ∧ (∀ raw l, w.store = some raw → raw ≠ "" → decodeItems raw = some l →
        w.load = Except.ok { w with items := l }) := by
  obtain ⟨its, st⟩ := w
  refine ⟨?_, ?_, ?_, ?_⟩
  · intro h
    subst h
    rfl
  · intro h
    subst h
    rfl
  · intro raw h hne hdec
    subst h
    show (if raw = "" then Except.ok (⟨[], some raw⟩ : Watchlist)
          else
            match decodeItems raw with
            | some v => Except.ok (⟨v, some raw⟩ : Watchlist)
            | none => Except.error ()) = Except.error ()
    rw [if_neg hne, hdec]
  · intro raw l h hne hdec
    subst h
    show (if raw = "" then Except.ok (⟨[], some raw⟩ : Watchlist)
          else
            match decodeItems raw with
            | some v => Except.ok (⟨v, some raw⟩ : Watchlist)
            | none => Except.error ()) = Except.ok ⟨l, some raw⟩
    rw [if_neg hne, hdec]

/-- Witness for C1 (amended): a concrete corrupt store makes `load` fail,
and a concrete absent store loads as the empty sequence. -/
theorem load_spec_witness :
    Watchlist.load ⟨[⟨"a", "T", "2001", "p", some false⟩], some "?"⟩ = Except.error () :=
  (load_spec ⟨[⟨"a", "T", "2001", "p", some false⟩], some "?"⟩).2.2.1 "?" rfl
    (by decide) (by decide)

/-- C2: a duplicate `add` is a silent no-op on the sequence; `add`
preserves pairwise-distinct `imdbID`s and only ever appends, so after any
sequence of `add` operations no two entries share an `imdbID` and every
already-present entry — in particular the first one added with a given
`imdbID` — stays in place. -/
theorem add_dedup_invariant (w : Watchlist) (e : MovieEntry)
    (hnd : (w.items.map (fun m => m.imdbID)).Nodup) :
    ((∃ m ∈ w.items, m.imdbID = e.imdbID) → (w.add e).items = w.items)
    ∧ ((w.add e).items.map (fun m => m.imdbID)).Nodup
    ∧ (∃ t, (w.add e).items = w.items ++ t)
    ∧ (∀ es : List MovieEntry,
        (((es.foldl Watchlist.add w).items).map (fun m => m.imdbID)).Nodup
        ∧ ∃ t, (es.foldl Watchlist.add w).items = w.items ++ t) :=
  ⟨fun h => by rw [Watchlist.add_of_mem w e h],
   Watchlist.add_nodup w e hnd,
   Watchlist.add_append w e,
   fun es => ⟨Watchlist.foldl_add_nodup es w hnd, Watchlist.foldl_add_append es w⟩⟩

/-- Witness for C2: adding a second entry with `imdbID` `"a"` leaves the
sequence unchanged, keeping the first entry. -/
theorem add_dedup_invariant_witness :
    (Watchlist.add ⟨[⟨"a", "T", "2001", "p", some false⟩], none⟩
        ⟨"a", "U", "2002", "q", none⟩).items
      = [⟨"a", "T", "2001", "p", some false⟩] :=
  (add_dedup_invariant ⟨[⟨"a", "T", "2001", "p", some false⟩], none⟩
    ⟨"a", "U", "2002", "q", none⟩ (by decide)).1 (by decide)

/-- C4: for r ∈ [0,1), `randomPick` returns `null` exactly when the
unwatched subset is empty; otherwise it returns the unwatched entry at
index ⌊r·len⌋, which is always in range; anything it returns is an
unwatched member of the list; and the set of r selecting index i is
exactly [i/len, (i+1)/len), so each unwatched entry is selected with
equal probability. -/
theorem randomPick_spec (w : Watchlist) (r : ℚ) (h0 : 0 ≤ r) (h1 : r < 1) :
    ((w.randomPick r).1 = none ↔ w.unwatchedOf = [])
    ∧ (∀ e, (w.randomPick r).1 = some e →
        e ∈ w.items ∧ watchedTruthy e.watched = false)
    ∧ (w.unwatchedOf ≠ [] →
        ∃ hlt : (⌊r * w.unwatchedOf.length⌋).toNat < w.unwatchedOf.length,
          (w.randomPick r).1
            = some (w.unwatchedOf.get ⟨(⌊r * w.unwatchedOf.length⌋).toNat, hlt⟩))
    ∧ (∀ i : Nat, i < w.unwatchedOf.length →
        ((⌊r * w.unwatchedOf.length⌋).toNat = i ↔
          (i : ℚ) / w.unwatchedOf.length ≤ r
          ∧ r < ((i : ℚ) + 1) / w.unwatchedOf.length)) := by
  by_cases hn : w.unwatchedOf.length = 0
  · have hemp : w.unwatchedOf = [] := List.length_eq_zero.mp hn
    have hpick : (w.randomPick r).1 = none := by
      simp [Watchlist.randomPick, hn]
    refine ⟨by simp [hpick, hemp], ?_, ?_, ?_⟩
    · intro e he
      rw [hpick] at he
      exact Option.noConfusion he
    · intro hne
      exact absurd hemp hne
    · intro i hi
      omega
  · have hpos : 0 < w.unwatchedOf.length := Nat.pos_of_ne_zero hn
    have hq : (0 : ℚ) < (w.unwatchedOf.length : ℚ) := by
      exact_mod_cast hpos
    have hfl0 : 0 ≤ ⌊r * (w.unwatchedOf.length : ℚ)⌋ :=
      Int.floor_nonneg.mpr (mul_nonneg h0 (le_of_lt hq))
    have hfln : ⌊r * (w.unwatchedOf.length : ℚ)⌋ < (w.unwatchedOf.length : ℤ) := by
      apply Int.floor_lt.mpr
      push_cast
      calc r * (w.unwatchedOf.length : ℚ)
          < 1 * (w.unwatchedOf.length : ℚ) := by
            exact mul_lt_mul_of_pos_right h1 hq
        _ = (w.unwatchedOf.length : ℚ) := one_mul _
    have htn : (⌊r * (w.unwatchedOf.length : ℚ)⌋).toNat < w.unwatchedOf.length := by
      omega
    have hget : w.unwatchedOf[(⌊r * (w.unwatchedOf.length : ℚ)⌋).toNat]?
        = some (w.unwatchedOf.get ⟨(⌊r * (w.unwatchedOf.length : ℚ)⌋).toNat, htn⟩) := by
      rw [List.getElem?_eq_getElem htn]
      rfl
    have hpick : (w.randomPick r).1
        = some (w.unwatchedOf.get ⟨(⌊r * (w.unwatchedOf.length : ℚ)⌋).toNat, htn⟩) := by
      simp only [Watchlist.randomPick, if_neg hn]
      exact hget
    refine ⟨?_, ?_, ?_, ?_⟩
    · rw [hpick]
      constructor
      · intro hc
        exact Option.noConfusion hc
      · intro hc
        rw [hc] at hpos
        simp at hpos
    · intro e he
      rw [hpick] at he
      have hmem : e ∈ w.unwatchedOf := by
        rw [← Option.some_inj.mp he]
        exact List.get_mem _ _ htn
      have := List.mem_filter.mp hmem
      refine ⟨this.1, ?_⟩
      have hb := this.2
      simp only [Bool.not_eq_true'] at hb
      exact hb
    · intro _
      exact ⟨htn, hpick⟩
    · intro i hi
      have hiff : (⌊r * (w.unwatchedOf.length : ℚ)⌋).toNat = i ↔
          ⌊r * (w.unwatchedOf.length : ℚ)⌋ = (i : ℤ) := by
        omega
      rw [hiff, Int.floor_eq_iff]
      constructor
      · rintro ⟨ha, hb⟩
        constructor
        · rw [div_le_iff₀ hq]
          exact_mod_cast ha
        · rw [lt_div_iff₀ hq]
          push_cast at hb ⊢
          linarith
      · rintro ⟨ha, hb⟩
        constructor
        · rw [div_le_iff₀ hq] at ha
          exact_mod_cast ha
        · rw [lt_div_iff₀ hq] at hb
          push_cast
          linarith

/-- Witness for C4: on an all-watched one-entry list, `randomPick 0`
returns the no-pick signal. -/
theorem randomPick_spec_witness :
    (Watchlist.randomPick ⟨[⟨"a", "T", "2001", "p", some true⟩], none⟩ 0).1 = none :=
  ((randomPick_spec ⟨[⟨"a", "T", "2001", "p", some true⟩], none⟩ 0 (le_refl 0)
    (by norm_num)).1).mpr (by decide)
